import Mathlib

/-!
Verification of the sharded, fault-tolerant indexing core of the
`amem_benchmark` repository.

The development shallowly embeds the orchestration core of
`amem_process_index.py` (the per-shard Worker: shard filtering,
checkpoint load, the per-turn processing loop with its fail-fast error
classification, and the per-conversation completion protocol) and of
`parallel_index.py` (the Orchestrator: the poll loop over worker
processes and the kill-all cleanup phase).  External collaborators
(the LLM, the vector store) are modelled by their observable outcomes:
each call either succeeds or raises an exception with a message string,
exactly the granularity at which the Python code reacts to them.
-/

/-! ### Shard assignment

`amem_process_index.py`, line 137: `if conv_idx % num_shards != shard_id: continue`.
Python `%` is floored modulo (`Int.fmod`) and raises `ZeroDivisionError`
when the divisor is zero, hence the `Option` result. -/

/-- Python integer modulo: floored (result has the divisor's sign),
`none` when the divisor is `0` (`ZeroDivisionError`). -/
def pyMod (a b : Int) : Option Int :=
  if b = 0 then none else some (Int.fmod a b)

/-- The shard assignment `item_index mod num_shards` used by the sharding
check in `process_indexing` (line 137). -/
def assign (itemIndex numShards : Int) : Option Int :=
  pyMod itemIndex numShards

/-- The Worker's sharding check: does shard `shardId` own item `convIdx`
for the given shard count?  `none` models an uncaught `ZeroDivisionError`. -/
def shardOwns (numShards shardId convIdx : Int) : Option Bool :=
  (assign convIdx numShards).map (fun r => decide (r = shardId))

/-- Indices of the first `count` dataset items owned by shard `shardId`. -/
def shardIndices (count : Nat) (numShards shardId : Int) : List Nat :=
  (List.range count).filter (fun i => shardOwns numShards shardId (Int.ofNat i) = some true)

/-! ### Decimal rendering of the turn index

The Worker builds each checkpoint key with the f-string
`f"{turn_idx}_{timestamp}"` (line 204).  `natDigsAux` renders a natural
number in decimal, most significant digit first; the fuel argument makes
the recursion structural (fuel `n + 1` always suffices since the value
shrinks by a factor of ten each step). -/

def natDigsAux : Nat → Nat → List Char
  | 0, _ => []
  | fuel + 1, n =>
    if n < 10 then [Nat.digitChar n]
    else natDigsAux fuel (n / 10) ++ [Nat.digitChar (n % 10)]

/-- Decimal digit characters of `n`, most significant first. -/
def natDigs (n : Nat) : List Char :=
  natDigsAux (n + 1) n

/-- Decimal rendering of a natural number, as Python's f-string renders a
nonnegative `int`. -/
def natToString (n : Nat) : String :=
  String.mk (natDigs n)

theorem natDigsAux_fuel_irrel : ∀ n fuel, n < fuel → natDigsAux fuel n = natDigs n := by
  intro n
  induction n using Nat.strong_induction_on with
  | _ n ih =>
    intro fuel hf
    match fuel, hf with
    | f + 1, hf =>
      by_cases h10 : n < 10
      · simp [natDigsAux, natDigs, h10]
      · have hn10 : 10 ≤ n := Nat.le_of_not_lt h10
        have hdiv : n / 10 < n := Nat.div_lt_self (by omega) (by omega)
        have h1 : natDigsAux f (n / 10) = natDigs (n / 10) :=
          ih (n / 10) hdiv f (by omega)
        have h2 : natDigsAux n (n / 10) = natDigs (n / 10) :=
          ih (n / 10) hdiv n (by omega)
        simp [natDigsAux, natDigs, h10]
        rw [h1, h2]

theorem natDigs_small {n : Nat} (h : n < 10) : natDigs n = [Nat.digitChar n] := by
  simp [natDigs, natDigsAux, h]

theorem natDigs_large {n : Nat} (h : ¬ n < 10) :
    natDigs n = natDigs (n / 10) ++ [Nat.digitChar (n % 10)] := by
  have hdiv : n / 10 < n := Nat.div_lt_self (by omega) (by omega)
  rw [natDigs]
  simp [natDigsAux, h]
  exact natDigsAux_fuel_irrel (n / 10) n (by omega)

/-- Numeric value of a digit character. -/
def charVal (c : Char) : Nat := c.toNat - 48

/-- Value of a most-significant-first digit string. -/
def digsVal (l : List Char) : Nat :=
  l.foldl (fun a c => a * 10 + charVal c) 0

theorem charVal_digitChar {d : Nat} (h : d < 10) : charVal (Nat.digitChar d) = d := by
  interval_cases d <;> decide

theorem digitChar_ne_underscore {d : Nat} (h : d < 10) : Nat.digitChar d ≠ '_' := by
  interval_cases d <;> decide

theorem digsVal_append_one (l : List Char) (c : Char) :
    digsVal (l ++ [c]) = digsVal l * 10 + charVal c := by
  simp [digsVal, List.foldl_append]

theorem digsVal_natDigs (n : Nat) : digsVal (natDigs n) = n := by
  induction n using Nat.strong_induction_on with
  | _ n ih =>
    by_cases h10 : n < 10
    · rw [natDigs_small h10]
      simp [digsVal, charVal_digitChar h10]
    · have hdiv : n / 10 < n := Nat.div_lt_self (by omega) (by omega)
      rw [natDigs_large h10, digsVal_append_one, ih (n / 10) hdiv,
        charVal_digitChar (Nat.mod_lt n (by omega))]
      omega

theorem natDigs_inj {m n : Nat} (h : natDigs m = natDigs n) : m = n := by
  have := digsVal_natDigs m
  rw [h, digsVal_natDigs] at this
  omega

theorem underscore_not_mem_natDigs (n : Nat) : '_' ∉ natDigs n := by
  induction n using Nat.strong_induction_on with
  | _ n ih =>
    by_cases h10 : n < 10
    · rw [natDigs_small h10]
      simp
      exact fun hc => digitChar_ne_underscore h10 hc.symm
    · have hdiv : n / 10 < n := Nat.div_lt_self (by omega) (by omega)
      rw [natDigs_large h10]
      simp
      refine ⟨ih (n / 10) hdiv, ?_⟩
      exact fun hc => digitChar_ne_underscore (Nat.mod_lt n (by omega)) hc.symm

/-! ### Turn keys

`process_indexing` line 204: `turn_key = f"{turn_idx}_{timestamp}"`. -/

/-- One conversational turn as produced by `extract_turns`. -/
structure Turn where
  content : String
  timestamp : String
  sessionId : String
deriving DecidableEq

/-- The checkpoint key of the turn at (enumerate) index `turnIdx`:
the decimal index, an underscore, then the turn's timestamp. -/
def turnKey (turnIdx : Nat) (t : Turn) : String :=
  natToString turnIdx ++ "_" ++ t.timestamp

theorem turnKey_data (i : Nat) (t : Turn) :
    (turnKey i t).data = natDigs i ++ '_' :: t.timestamp.data := by
  simp [turnKey, natToString]

theorem append_underscore_inj : ∀ (l₁ l₂ r₁ r₂ : List Char),
    l₁ ++ '_' :: r₁ = l₂ ++ '_' :: r₂ → '_' ∉ l₁ → '_' ∉ l₂ →
    l₁ = l₂ ∧ r₁ = r₂ := by
  intro l₁
  induction l₁ with
  | nil =>
    intro l₂ r₁ r₂ h h₁ h₂
    cases l₂ with
    | nil => simpa using h
    | cons c t =>
      simp at h
      exact absurd (h.1 ▸ List.mem_cons_self c t) h₂
  | cons c t ih =>
    intro l₂ r₁ r₂ h h₁ h₂
    cases l₂ with
    | nil =>
      simp at h
      exact absurd (h.1 ▸ List.mem_cons_self '_' t) h₁
    | cons d u =>
      simp at h
      obtain ⟨rfl, h'⟩ := h
      have := ih u r₁ r₂ h' (fun hm => h₁ (List.mem_cons_of_mem c hm))
        (fun hm => h₂ (List.mem_cons_of_mem c hm))
      exact ⟨by rw [this.1], this.2⟩

/-- The turn index is recoverable from the key: keys of turns at different
indices always differ. -/
theorem turnKey_inj {i j : Nat} {t u : Turn} (h : turnKey i t = turnKey j u) :
    i = j ∧ t.timestamp = u.timestamp := by
  have hd : (turnKey i t).data = (turnKey j u).data := by rw [h]
  rw [turnKey_data, turnKey_data] at hd
  have := append_underscore_inj _ _ _ _ hd
    (underscore_not_mem_natDigs i) (underscore_not_mem_natDigs j)
  exact ⟨natDigs_inj this.1, String.ext this.2⟩

/-! ### Fatal-error classification

`process_indexing` lines 264-272: the per-turn `except` block lowercases
the exception message and fail-fasts (`sys.exit(1)`) when it contains
`"500"`, `"connection"` or `"internal server"`; every other per-turn
exception is printed and the loop continues. -/

/-- Python's `str.lower()` on the message (per-character lowering). -/
def strLower (s : String) : String :=
  String.mk (s.data.map Char.toLower)

/-- Python's substring test `pat in s` on character lists. -/
def listContainsSub (pat s : List Char) : Bool :=
  match s with
  | [] => pat.isEmpty
  | _ :: rest => pat.isPrefixOf s || listContainsSub pat rest

/-- Python's substring test `pat in s`. -/
def strContainsSub (pat s : String) : Bool :=
  listContainsSub pat.data s.data

/-- The fail-fast classification of a per-turn exception message
(line 267): lowercased message contains `"500"`, `"connection"` or
`"internal server"`. -/
def isFatalError (msg : String) : Bool :=
  strContainsSub "500" (strLower msg) ||
    strContainsSub "connection" (strLower msg) ||
    strContainsSub "internal server" (strLower msg)

/-! ### Checkpoint load

`process_indexing` lines 160-169: `processed_turns` starts empty; if
`processed_turns.json` exists it is parsed inside a `try`, and a parse
failure prints a warning and leaves the set empty. -/

/-- Observable states of the on-disk checkpoint file. -/
inductive CheckpointFile
  | absentFile
  | corruptFile
  | wellFormedFile (keys : List String)
deriving DecidableEq

/-- Loading `processed_turns.json`: returns the loaded key set together
with whether the corruption warning was printed. -/
def loadProcessedTurns : CheckpointFile → List String × Bool
  | .absentFile => ([], false)
  | .corruptFile => ([], true)
  | .wellFormedFile keys => (keys, false)

/-! ### The per-turn processing loop

`process_indexing` lines 199-272.  Each turn is skipped when its key is
already in `processed_turns`; otherwise the `try` block runs
`add_note`, increments `added_count`, appends the key to
`processed_turns` and rewrites `processed_turns.json` (the checkpoint
write), and finally adds the new note to the persistent ChromaDB
collection.  An exception anywhere in the block lands in the fail-fast
classifier.  A turn's external calls are modelled by where they fail:
`failAddNote` is an exception raised before the checkpoint write
(inside `add_note`), `failPersist` one raised after it (inside the
ChromaDB persistence code, lines 237-261). -/

/-- Observable outcome of one turn's `try` block. -/
inductive TurnOutcome
  | ok
  | failAddNote (msg : String)
  | failPersist (msg : String)
deriving DecidableEq

/-- Worker-local mutable state of the per-turn loop: the
`processed_turns` set (kept in sync with `processed_turns.json`), the
`added_count` counter, and — as an observable trace — the indices of the
turns whose `try` block was entered. -/
structure LoopState where
  processed : List String
  addedCount : Nat
  attempted : List Nat
deriving DecidableEq

/-- The per-turn loop of `process_indexing` (lines 199-272), starting at
enumerate index `idx`.  Returns the final state and whether the Worker
called `sys.exit(1)` (fail-fast). -/
def processTurnsFrom (oc : Nat → TurnOutcome) : Nat → List Turn → LoopState → LoopState × Bool
  | _, [], st => (st, false)
  | idx, t :: rest, st =>
    if turnKey idx t ∈ st.processed then
      processTurnsFrom oc (idx + 1) rest st
    else
      match oc idx with
      | .ok =>
        processTurnsFrom oc (idx + 1) rest
          ⟨st.processed ++ [turnKey idx t], st.addedCount + 1, st.attempted ++ [idx]⟩
      | .failAddNote msg =>
        if isFatalError msg then
          ({ st with attempted := st.attempted ++ [idx] }, true)
        else
          processTurnsFrom oc (idx + 1) rest { st with attempted := st.attempted ++ [idx] }
      | .failPersist msg =>
        if isFatalError msg then
          (⟨st.processed ++ [turnKey idx t], st.addedCount + 1, st.attempted ++ [idx]⟩, true)
        else
          processTurnsFrom oc (idx + 1) rest
            ⟨st.processed ++ [turnKey idx t], st.addedCount + 1, st.attempted ++ [idx]⟩

/-- The turns at enumerate index `idx` onwards whose key is not in
`done`: the units a (re-)run actually processes. -/
def remainingFrom : Nat → List Turn → List String → List (Nat × Turn)
  | _, [], _ => []
  | idx, t :: rest, done =>
    if turnKey idx t ∈ done then remainingFrom (idx + 1) rest done
    else (idx, t) :: remainingFrom (idx + 1) rest done

/-- Checkpoint keys of a turn list, starting at enumerate index `idx`. -/
def turnKeys : Nat → List Turn → List String
  | _, [] => []
  | idx, t :: rest => turnKey idx t :: turnKeys (idx + 1) rest

/-- Keys of the turns that end up checkpointed when their `try` block
runs: outcome `ok` or `failPersist` (the exception hits after the
checkpoint write), but not `failAddNote`. -/
def committedKeys (oc : Nat → TurnOutcome) : Nat → List Turn → List String
  | _, [] => []
  | idx, t :: rest =>
    match oc idx with
    | .failAddNote _ => committedKeys oc (idx + 1) rest
    | _ => turnKey idx t :: committedKeys oc (idx + 1) rest

/-! ### The per-conversation protocol

`process_indexing` lines 135-313: skip when no turns were extracted
(line 146); skip when `completed.flag` exists (line 156); load
`processed_turns.json` (lines 160-169); then a `try` block initialises
the memory system, runs the per-turn loop, writes
`memory_metadata.json` and finally `completed.flag`.  Any exception in
that outer block — `sys.exit` excepted, since Python's `SystemExit` is
not an `Exception` — is printed with a traceback and the loop moves on
to the next conversation (lines 309-313). -/

/-- One conversation as the Worker sees it, together with the observable
behaviour of its external calls: `initError`, `metadataError` and
`flagError` give the message of the exception raised (if any) by the
memory-system initialisation, the metadata write and the flag write. -/
structure ConvSpec where
  turns : List Turn
  flagExists : Bool
  ckpt : CheckpointFile
  outcomes : Nat → TurnOutcome
  initError : Option String
  metadataError : Option String
  flagError : Option String

/-- Result of processing one conversation. -/
inductive EntityResult
  | skippedNoTurns
  | skippedCompleted
  | abandoned (msg : String)
  | fatalExit (st : LoopState)
  | completed (st : LoopState)
deriving DecidableEq

/-- Does the result leave a `completed.flag` behind? -/
def writesFlag : EntityResult → Bool
  | .completed _ => true
  | _ => false

def isFatalExit : EntityResult → Bool
  | .fatalExit _ => true
  | _ => false

/-- The per-conversation body of `process_indexing` (lines 135-313). -/
def runConversation (c : ConvSpec) : EntityResult :=
  if c.turns.isEmpty then .skippedNoTurns
  else if c.flagExists then .skippedCompleted
  else
    let initial := (loadProcessedTurns c.ckpt).1
    match c.initError with
    | some msg => .abandoned msg
    | none =>
      let r := processTurnsFrom c.outcomes 0 c.turns ⟨initial, 0, []⟩
      if r.2 then .fatalExit r.1
      else
        match c.metadataError with
        | some msg => .abandoned msg
        | none =>
          match c.flagError with
          | some msg => .abandoned msg
          | none => .completed r.1

/-- The Worker's loop over its shard's conversations: `sys.exit(1)`
aborts the whole process, every other outcome moves on.  Returns the
per-conversation results and whether the process died fatally. -/
def processShard : List ConvSpec → List EntityResult × Bool
  | [] => ([], false)
  | c :: rest =>
    let r := runConversation c
    if isFatalExit r then ([r], true)
    else
      let p := processShard rest
      (r :: p.1, p.2)

/-- The Worker's process exit code: `1` after `sys.exit(1)`, else `0`. -/
def workerExitCode (convs : List ConvSpec) : Int :=
  if (processShard convs).2 then 1 else 0

/-! ### The per-turn commit sequence

The "Persistence Block" of `process_indexing` in program order:
`add_note` returns (line 221), `added_count` is incremented, step 1
appends the key to `processed_turns` and rewrites
`processed_turns.json` (lines 231-233), step 2 adds the note to the
persistent ChromaDB collection (lines 237-261). -/

/-- Program points between the durable operations of one turn's commit
sequence. -/
inductive CommitPoint
  | beforeNoteAdd
  | afterNoteAdd
  | afterCheckpointDump
  | afterPersistentAdd
deriving DecidableEq

/-- The commit points in the order the code passes through them. -/
def commitOrder : List CommitPoint :=
  [.beforeNoteAdd, .afterNoteAdd, .afterCheckpointDump, .afterPersistentAdd]

/-- Is the turn's key durably recorded in `processed_turns.json` at this
point?  True from the `json.dump` of step 1 on (lines 231-233). -/
def keyCheckpointedAt : CommitPoint → Bool
  | .afterCheckpointDump => true
  | .afterPersistentAdd => true
  | _ => false

/-- Has the note been added to the persistent ChromaDB collection at
this point?  True only after step 2's `persistent_collection.add`
(lines 256-261). -/
def notePersistedAt : CommitPoint → Bool
  | .afterPersistentAdd => true
  | _ => false

/-! ### The Orchestrator

`parallel_index.py`, `run_parallel_indexing` (lines 17-125).  The
monitor loop polls every worker once per pass (lines 74-98): a running
worker clears `all_done`, a non-zero exit code sets `failed` and breaks
out.  A `KeyboardInterrupt` also sets `failed` (lines 100-102).  The
`finally` block (lines 104-125): on failure it terminates every
still-running worker, waits up to 5 seconds and kills it on timeout,
closes every log file handle, and calls `sys.exit(1)`; on success it
only closes the log file handles (and the function returns, exit 0). -/

/-- A worker's status as seen by `proc.poll()`: `none` while running,
otherwise the exit code. -/
abbrev PollStatus := Option Int

/-- Result of one pass of the monitor `for` loop. -/
inductive PassResult
  | failed
  | allDone
  | keepPolling
deriving DecidableEq

/-- One pass over the workers' poll statuses (lines 75-89), carrying the
`all_done` accumulator. -/
def pollWorkers : List PollStatus → Bool → PassResult
  | [], allDone => if allDone then .allDone else .keepPolling
  | none :: rest, _ => pollWorkers rest false
  | some c :: rest, allDone =>
    if c = 0 then pollWorkers rest allDone else .failed

/-- The monitor loop (lines 74-98) over successive poll snapshots:
`some true` = a failure was detected, `some false` = all workers
finished with code 0, `none` = the supplied snapshots ran out while
still polling. -/
def monitorWorkers : List (List PollStatus) → Option Bool
  | [] => none
  | snap :: rest =>
    match pollWorkers snap true with
    | .failed => some true
    | .allDone => some false
    | .keepPolling => monitorWorkers rest

/-- `proc.wait(timeout=5)` in the termination phase (line 113). -/
def gracePeriod : Nat := 5

/-- What the termination phase does to one worker. -/
inductive WorkerFate
  | alreadyExited (c : Int)
  | terminated
  | killed
deriving DecidableEq

/-- A worker at cleanup time: its poll status, and how long after
`terminate()` it would take to exit (`none` = it never would). -/
structure WorkerAtCleanup where
  status : PollStatus
  termResponseTime : Option Nat
deriving DecidableEq

/-- Lines 108-115: a still-running worker gets `terminate()`, then
`wait(timeout=5)`; on timeout it gets `kill()`. -/
def terminateWorker (w : WorkerAtCleanup) : WorkerFate :=
  match w.status with
  | some c => .alreadyExited c
  | none =>
    match w.termResponseTime with
    | some t => if t ≤ gracePeriod then .terminated else .killed
    | none => .killed

/-- Observable outcome of the orchestrator run: the termination actions
taken (empty when the termination phase is not entered), whether every
log file handle was closed, and the process exit code. -/
structure OrchestratorOutcome where
  terminations : List WorkerFate
  logsClosed : Bool
  exitCode : Int
deriving DecidableEq

/-- The `finally` block (lines 104-125). -/
def cleanupAndExit (failed : Bool) (ws : List WorkerAtCleanup) : OrchestratorOutcome :=
  if failed then ⟨ws.map terminateWorker, true, 1⟩
  else ⟨[], true, 0⟩

/-- The whole supervision run: monitor until a decision (or an external
interrupt), then clean up.  `none` when the snapshot list is exhausted
before any decision. -/
def runOrchestrator (snaps : List (List PollStatus)) (interrupted : Bool)
    (ws : List WorkerAtCleanup) : Option OrchestratorOutcome :=
  match (if interrupted then some true else monitorWorkers snaps) with
  | none => none
  | some failed => some (cleanupAndExit failed ws)

/-! ### Lemmas about the per-turn loop -/

theorem processTurnsFrom_processed_mono (oc : Nat → TurnOutcome) :
    ∀ (ts : List Turn) (idx : Nat) (st : LoopState) (k : String),
      k ∈ st.processed → k ∈ ((processTurnsFrom oc idx ts st).1).processed := by
  intro ts
  induction ts with
  | nil => intro idx st k hk; simpa [processTurnsFrom] using hk
  | cons t rest ih =>
    intro idx st k hk
    by_cases hmem : turnKey idx t ∈ st.processed
    · simpa [processTurnsFrom, hmem] using ih (idx + 1) st k hk
    · match hoc : oc idx with
      | .ok =>
        simp only [processTurnsFrom, if_neg hmem, hoc]
        exact ih (idx + 1) _ k (List.mem_append_left _ hk)
      | .failAddNote msg =>
        by_cases hf : isFatalError msg
        · simpa [processTurnsFrom, hmem, hoc, hf] using hk
        · simp only [processTurnsFrom, if_neg hmem, hoc, if_neg hf]
          exact ih (idx + 1) _ k hk
      | .failPersist msg =>
        by_cases hf : isFatalError msg
        · simp only [processTurnsFrom, if_neg hmem, hoc, if_pos hf]
          exact List.mem_append_left _ hk
        · simp only [processTurnsFrom, if_neg hmem, hoc, if_neg hf]
          exact ih (idx + 1) _ k (List.mem_append_left _ hk)

theorem remainingFrom_not_done :
    ∀ (ts : List Turn) (idx : Nat) (done : List String) (p : Nat × Turn),
      p ∈ remainingFrom idx ts done → turnKey p.1 p.2 ∉ done := by
  intro ts
  induction ts with
  | nil => intro idx done p hp; simp [remainingFrom] at hp
  | cons t rest ih =>
    intro idx done p hp
    by_cases hmem : turnKey idx t ∈ done
    · exact ih (idx + 1) done p (by simpa [remainingFrom, hmem] using hp)
    · rw [remainingFrom, if_neg hmem] at hp
      rcases List.mem_cons.1 hp with h | h
      · subst h; exact hmem
      · exact ih (idx + 1) done p h

theorem remainingFrom_fresh :
    ∀ (ts : List Turn) (idx j : Nat) (u : Turn) (done : List String), j < idx →
      remainingFrom idx ts (done ++ [turnKey j u]) = remainingFrom idx ts done := by
  intro ts
  induction ts with
  | nil => intro idx j u done hj; simp [remainingFrom]
  | cons t rest ih =>
    intro idx j u done hj
    have hne : turnKey idx t ≠ turnKey j u := by
      intro h
      exact absurd (turnKey_inj h).1 (by omega)
    by_cases hmem : turnKey idx t ∈ done
    · rw [remainingFrom, if_pos (List.mem_append_left _ hmem),
        remainingFrom, if_pos hmem]
      exact ih (idx + 1) j u done (by omega)
    · have hnot : turnKey idx t ∉ done ++ [turnKey j u] := by
        intro h
        rcases List.mem_append.1 h with h | h
        · exact hmem h
        · exact hne (List.mem_singleton.1 h)
      rw [remainingFrom, if_neg hnot, remainingFrom, if_neg hmem,
        ih (idx + 1) j u done (by omega)]

theorem processTurnsFrom_allOk (oc : Nat → TurnOutcome) (hoc : ∀ i, oc i = TurnOutcome.ok) :
    ∀ (ts : List Turn) (idx : Nat) (st : LoopState),
      processTurnsFrom oc idx ts st =
        (⟨st.processed ++ (remainingFrom idx ts st.processed).map (fun p => turnKey p.1 p.2),
          st.addedCount + (remainingFrom idx ts st.processed).length,
          st.attempted ++ (remainingFrom idx ts st.processed).map Prod.fst⟩, false) := by
  intro ts
  induction ts with
  | nil => intro idx st; simp [processTurnsFrom, remainingFrom]
  | cons t rest ih =>
    intro idx st
    by_cases hmem : turnKey idx t ∈ st.processed
    · rw [processTurnsFrom, if_pos hmem, remainingFrom, if_pos hmem]
      exact ih (idx + 1) st
    · rw [processTurnsFrom, if_neg hmem, hoc idx, remainingFrom, if_neg hmem]
      rw [ih (idx + 1) ⟨st.processed ++ [turnKey idx t], st.addedCount + 1, st.attempted ++ [idx]⟩]
      simp only [remainingFrom_fresh rest (idx + 1) idx t st.processed (by omega)]
      simp [LoopState.mk.injEq, List.append_assoc]
      omega

theorem processTurnsFrom_committed_mem (oc : Nat → TurnOutcome) :
    ∀ (ts : List Turn) (idx : Nat) (st : LoopState),
      (processTurnsFrom oc idx ts st).2 = false →
      ∀ k ∈ committedKeys oc idx ts, k ∈ ((processTurnsFrom oc idx ts st).1).processed := by
  intro ts
  induction ts with
  | nil => intro idx st _ k hk; simp [committedKeys] at hk
  | cons t rest ih =>
    intro idx st hsnd k hk
    by_cases hmem : turnKey idx t ∈ st.processed
    · rw [processTurnsFrom, if_pos hmem] at hsnd ⊢
      match hoc : oc idx with
      | .ok =>
        rw [committedKeys, hoc] at hk
        rcases List.mem_cons.1 hk with h | h
        · exact h ▸ processTurnsFrom_processed_mono oc rest (idx + 1) st _ hmem
        · exact ih (idx + 1) st hsnd k h
      | .failAddNote msg =>
        rw [committedKeys, hoc] at hk
        exact ih (idx + 1) st hsnd k hk
      | .failPersist msg =>
        rw [committedKeys, hoc] at hk
        rcases List.mem_cons.1 hk with h | h
        · exact h ▸ processTurnsFrom_processed_mono oc rest (idx + 1) st _ hmem
        · exact ih (idx + 1) st hsnd k h
    · match hoc : oc idx with
      | .ok =>
        rw [processTurnsFrom, if_neg hmem, hoc] at hsnd ⊢
        rw [committedKeys, hoc] at hk
        rcases List.mem_cons.1 hk with h | h
        · refine processTurnsFrom_processed_mono oc rest (idx + 1) _ k ?_
          simp [h]
        · exact ih (idx + 1) _ hsnd k h
      | .failAddNote msg =>
        rw [committedKeys, hoc] at hk
        by_cases hf : isFatalError msg
        · simp only [processTurnsFrom, if_neg hmem, hoc, if_pos hf] at hsnd
          simp at hsnd
        · simp only [processTurnsFrom, if_neg hmem, hoc, if_neg hf] at hsnd ⊢
          exact ih (idx + 1) _ hsnd k hk
      | .failPersist msg =>
        rw [committedKeys, hoc] at hk
        by_cases hf : isFatalError msg
        · simp only [processTurnsFrom, if_neg hmem, hoc, if_pos hf] at hsnd
          simp at hsnd
        · simp only [processTurnsFrom, if_neg hmem, hoc, if_neg hf] at hsnd ⊢
          rcases List.mem_cons.1 hk with h | h
          · refine processTurnsFrom_processed_mono oc rest (idx + 1) _ k ?_
            simp [h]
          · exact ih (idx + 1) _ hsnd k h

/-! ### Lemmas about the monitor loop -/

theorem pollWorkers_failed_of_mem :
    ∀ (snap : List PollStatus) (b : Bool) (c : Int),
      some c ∈ snap → c ≠ 0 → pollWorkers snap b = PassResult.failed := by
  intro snap
  induction snap with
  | nil => intro b c hc _; simp at hc
  | cons s rest ih =>
    intro b c hc hc0
    rcases List.mem_cons.1 hc with h | h
    · subst h
      simp [pollWorkers, hc0]
    · match s with
      | none => exact ih false c h hc0
      | some d =>
        by_cases hd : d = 0
        · simpa [pollWorkers, hd] using ih b c h hc0
        · simp [pollWorkers, hd]

theorem pollWorkers_false_ne_allDone :
    ∀ (snap : List PollStatus), pollWorkers snap false ≠ PassResult.allDone := by
  intro snap
  induction snap with
  | nil => simp [pollWorkers]
  | cons s rest ih =>
    match s with
    | none => simpa [pollWorkers] using ih
    | some d =>
      by_cases hd : d = 0
      · simpa [pollWorkers, hd] using ih
      · simp [pollWorkers, hd]

theorem pollWorkers_allDone_all_zero :
    ∀ (snap : List PollStatus) (b : Bool),
      pollWorkers snap b = PassResult.allDone → ∀ s ∈ snap, s = some 0 := by
  intro snap
  induction snap with
  | nil => intro b _ s hs; simp at hs
  | cons x rest ih =>
    intro b h s hs
    match x with
    | none =>
      rw [pollWorkers] at h
      exact absurd h (pollWorkers_false_ne_allDone rest)
    | some d =>
      by_cases hd : d = 0
      · rcases List.mem_cons.1 hs with h' | h'
        · simp [h', hd]
        · rw [pollWorkers, if_pos hd] at h
          exact ih b h s h'
      · rw [pollWorkers, if_neg hd] at h
        simp at h

theorem monitorWorkers_success :
    ∀ (snaps : List (List PollStatus)), monitorWorkers snaps = some false →
      ∃ snap ∈ snaps, pollWorkers snap true = PassResult.allDone := by
  intro snaps
  induction snaps with
  | nil => intro h; simp [monitorWorkers] at h
  | cons snap rest ih =>
    intro h
    rw [monitorWorkers] at h
    match hp : pollWorkers snap true with
    | .failed => rw [hp] at h; simp at h
    | .allDone => exact ⟨snap, List.mem_cons_self _ _, hp⟩
    | .keepPolling =>
      rw [hp] at h
      obtain ⟨s, hs, hps⟩ := ih h
      exact ⟨s, List.mem_cons_of_mem _ hs, hps⟩

/-! ### Example data used by concrete witnesses and counterexamples -/

def exTurnA : Turn := ⟨"User: hello", "2024-01-01T10:00", "s1"⟩

def exTurnB : Turn := ⟨"User: bye", "2024-01-02T10:00", "s1"⟩

def exTurnC : Turn := ⟨"User: one", "2024-01-03T10:00", "s2"⟩

def exTurnD : Turn := ⟨"User: two", "2024-01-04T10:00", "s2"⟩

def exTurnE : Turn := ⟨"User: three", "2024-01-05T10:00", "s2"⟩

/-! ### C1 -/

/-- C1: the claim asserts that in every reachable state of the per-turn
commit sequence, a key present in the persisted checkpoint set implies
the note is in the persistent collection.  The code performs the
checkpoint dump (step 1, lines 231-233) *before* the persistent
ChromaDB add (step 2, lines 256-261), so the commit point right after
the checkpoint dump is a reachable state with the key durably
checkpointed and the note not yet persisted — the invariant is violated
there. -/
theorem C1_checkpoint_write_precedes_persistent_add :
    CommitPoint.afterCheckpointDump ∈ commitOrder ∧
    keyCheckpointedAt CommitPoint.afterCheckpointDump = true ∧
    notePersistedAt CommitPoint.afterCheckpointDump = false := by
  decide

/-! ### C4 -/

/-- C4: for every `num_shards ≥ 1` and item index, the assignment
`i mod num_shards` yields exactly one shard id in `[0, num_shards)`,
deterministically; with 10 items and 2 shards, shard 0 owns exactly the
even indices and shard 1 exactly the odd ones. -/
theorem C4_shard_partition :
    (∀ i n : Int, 1 ≤ n →
      (∃ s, assign i n = some s ∧ 0 ≤ s ∧ s < n) ∧
      (∀ s t : Int, assign i n = some s → assign i n = some t → s = t) ∧
      assign i n = assign i n) ∧
    shardIndices 10 2 0 = [0, 2, 4, 6, 8] ∧
    shardIndices 10 2 1 = [1, 3, 5, 7, 9] := by
  refine ⟨?_, by decide, by decide⟩
  intro i n hn
  have hn0 : n ≠ 0 := by omega
  refine ⟨⟨Int.fmod i n, ?_, Int.fmod_nonneg' i (by omega), Int.fmod_lt_of_pos i (by omega)⟩, ?_, rfl⟩
  · simp [assign, pyMod, hn0]
  · intro s t hs ht
    rw [hs] at ht
    exact Option.some.inj ht

/-- Witness for C4 at `i = 7`, `n = 3`. -/
theorem C4_witness :
    (1 : Int) ≤ 3 ∧ (∃ s, assign 7 3 = some s ∧ 0 ≤ s ∧ s < 3) :=
  ⟨by decide, (C4_shard_partition.1 7 3 (by decide)).1⟩

/-! ### C7 -/

/-- C7 counterexample: the claim says the shard assignment fails for
every `num_shards ≤ 0`.  At `num_shards = -1 ≤ 0` it does not fail:
Python's floored modulo is defined for negative divisors, so the
sharding check silently evaluates (`5 % -1 == 0`). -/
theorem C7_counterexample :
    (-1 : Int) ≤ 0 ∧ assign 5 (-1) = some 0 ∧ assign 5 (-1) ≠ none := by
  decide

/-- C7 as amended: only `num_shards = 0` makes the sharding check fail,
and that failure is an uncaught `ZeroDivisionError` raised at the first
sharding check inside the conversation loop (not a validated
`InvalidConfiguration` startup error — neither `main` nor the
orchestrator validates the shard count); for `num_shards < 0` no error
is raised at all. -/
theorem C7_no_validation_on_nonpositive_shards (i : Int) :
    assign i 0 = none ∧
    shardOwns 0 0 i = none ∧
    (∀ n : Int, n < 0 → ∃ r, assign i n = some r) := by
  refine ⟨by simp [assign, pyMod], by simp [shardOwns, assign, pyMod], ?_⟩
  intro n hn
  have hn0 : n ≠ 0 := by omega
  exact ⟨Int.fmod i n, by simp [assign, pyMod, hn0]⟩

/-- Witness for C7 at `i = 3`, `n = -2`. -/
theorem C7_witness :
    assign 3 0 = none ∧ ∃ r, assign 3 (-2) = some r :=
  ⟨(C7_no_validation_on_nonpositive_shards 3).1,
    (C7_no_validation_on_nonpositive_shards 3).2.2 (-2) (by decide)⟩

/-! ### C8 -/

/-- C8: loading the checkpoint yields the empty set when the file is
absent; unparseable checkpoint data yields the empty set plus a warning,
and the conversation is then processed exactly as if the checkpoint
were an empty set — corruption is never fatal to the Worker. -/
theorem C8_corrupt_checkpoint_never_fatal :
    loadProcessedTurns CheckpointFile.absentFile = ([], false) ∧
    loadProcessedTurns CheckpointFile.corruptFile = ([], true) ∧
    (∀ c : ConvSpec, c.ckpt = CheckpointFile.corruptFile →
      runConversation c = runConversation { c with ckpt := CheckpointFile.wellFormedFile [] }) := by
  refine ⟨rfl, rfl, ?_⟩
  intro c hc
  rcases c with ⟨ts, flag, ck, oc, ie, me, fl⟩
  cases hc
  rfl

/-- Witness for C8 on a concrete conversation with a corrupt checkpoint. -/
theorem C8_witness :
    runConversation ⟨[exTurnA], false, CheckpointFile.corruptFile, fun _ => TurnOutcome.ok, none, none, none⟩ =
      runConversation ⟨[exTurnA], false, CheckpointFile.wellFormedFile [], fun _ => TurnOutcome.ok, none, none, none⟩ :=
  C8_corrupt_checkpoint_never_fatal.2.2 _ rfl

/-! ### C9 -/

/-- C9 counterexample: the claim says each turn keeps the same key under
any reordering of an entity's turns.  Swapping the two turns of a
two-turn entity changes the key of `exTurnA` from `0_<ts>` to `1_<ts>`:
the key embeds the enumerate index, so identity does not survive
reordering. -/
theorem C9_counterexample :
    turnKeys 0 [exTurnA, exTurnB] =
      ["0_2024-01-01T10:00", "1_2024-01-02T10:00"] ∧
    turnKeys 0 [exTurnB, exTurnA] =
      ["0_2024-01-02T10:00", "1_2024-01-01T10:00"] ∧
    List.Perm [exTurnB, exTurnA] [exTurnA, exTurnB] ∧
    turnKey 1 exTurnA ≠ turnKey 0 exTurnA := by
  decide

/-- C9 as amended: the key is derived from the turn's enumerate index
*and* its timestamp — it distinguishes turns with different timestamps
at the same position — but the index is part of the key, so a
reordering that changes a turn's index always changes its key. -/
theorem C9_key_depends_on_index :
    (∀ (i : Nat) (t u : Turn), t.timestamp ≠ u.timestamp → turnKey i t ≠ turnKey i u) ∧
    (∀ (i j : Nat) (t : Turn), i ≠ j → turnKey i t ≠ turnKey j t) := by
  constructor
  · intro i t u hts h
    exact hts (turnKey_inj h).2
  · intro i j t hij h
    exact hij (turnKey_inj h).1

/-- Witness for C9's amended statement on concrete turns. -/
theorem C9_witness :
    turnKey 0 exTurnA ≠ turnKey 0 exTurnB ∧ turnKey 0 exTurnA ≠ turnKey 1 exTurnA :=
  ⟨C9_key_depends_on_index.1 0 exTurnA exTurnB (by decide),
    C9_key_depends_on_index.2 0 1 exTurnA (by decide)⟩

/-! ### C5 -/

/-- The soft (non-fatal) persistence failure used by C5's counterexample:
a ChromaDB write error whose message matches none of the fatal patterns. -/
def ocPersistSoft : Nat → TurnOutcome := fun _ => TurnOutcome.failPersist "disk quota exceeded"

/-- C5 counterexample: the claim says every non-fatal per-unit error
leaves the unit's key un-checkpointed.  A non-fatal exception raised in
the persistence code (lines 237-261) — i.e. *after* step 1's checkpoint
dump — leaves the key checkpointed: the loop continues (no fatal exit),
yet the key is in `processed_turns`. -/
theorem C5_counterexample :
    isFatalError "disk quota exceeded" = false ∧
    processTurnsFrom ocPersistSoft 0 [exTurnA] ⟨[], 0, []⟩ =
      (⟨["0_2024-01-01T10:00"], 1, [0]⟩, false) ∧
    turnKey 0 exTurnA ∈
      (processTurnsFrom ocPersistSoft 0 [exTurnA] ⟨[], 0, []⟩).1.processed := by
  decide

/-- C5 as amended: a per-unit error matching the fatal patterns makes
the Worker exit non-zero immediately, attempting no further unit; every
other per-unit error is logged and iteration continues with the next
unit, the failing unit's key being left un-checkpointed exactly when the
error was raised before the checkpoint write (in `add_note`) — an error
raised in the persistence step after the checkpoint write leaves the key
checkpointed.  A fatal exit anywhere makes the whole Worker process
exit with code 1, abandoning all later conversations. -/
theorem C5_fail_fast_classification :
    ∀ (oc : Nat → TurnOutcome) (idx : Nat) (t : Turn) (rest : List Turn)
      (st : LoopState) (msg : String),
      turnKey idx t ∉ st.processed →
      ((oc idx = TurnOutcome.failAddNote msg ∨ oc idx = TurnOutcome.failPersist msg) →
        isFatalError msg = true →
        (processTurnsFrom oc idx (t :: rest) st).2 = true ∧
        (processTurnsFrom oc idx (t :: rest) st).1.attempted = st.attempted ++ [idx]) ∧
      (oc idx = TurnOutcome.failAddNote msg → isFatalError msg = false →
        processTurnsFrom oc idx (t :: rest) st =
          processTurnsFrom oc (idx + 1) rest { st with attempted := st.attempted ++ [idx] }) ∧
      (oc idx = TurnOutcome.failPersist msg → isFatalError msg = false →
        processTurnsFrom oc idx (t :: rest) st =
          processTurnsFrom oc (idx + 1) rest
            ⟨st.processed ++ [turnKey idx t], st.addedCount + 1, st.attempted ++ [idx]⟩) ∧
      (∀ (c : ConvSpec) (convs : List ConvSpec), isFatalExit (runConversation c) = true →
        workerExitCode (c :: convs) = 1 ∧
        (processShard (c :: convs)).1 = [runConversation c]) := by
  intro oc idx t rest st msg hmem
  refine ⟨?_, ?_, ?_, ?_⟩
  · rintro (hoc | hoc) hf
    · constructor <;> simp [processTurnsFrom, hmem, hoc, hf]
    · constructor <;> simp [processTurnsFrom, hmem, hoc, hf]
  · intro hoc hf
    simp [processTurnsFrom, hmem, hoc, hf]
  · intro hoc hf
    simp [processTurnsFrom, hmem, hoc, hf]
  · intro c convs hfe
    constructor
    · simp [workerExitCode, processShard, hfe]
    · simp [processShard, hfe]

/-- The fatal outcome used by C5's witness. -/
def ocFatal : Nat → TurnOutcome := fun _ => TurnOutcome.failAddNote "HTTP 500 Internal Server Error"

/-- Witness for C5 on a concrete fatal error: the loop exits fatally at
unit 0 and never attempts unit 1. -/
theorem C5_witness :
    (processTurnsFrom ocFatal 0 [exTurnA, exTurnB] ⟨[], 0, []⟩).2 = true ∧
    (processTurnsFrom ocFatal 0 [exTurnA, exTurnB] ⟨[], 0, []⟩).1.attempted = [0] := by
  have h := (C5_fail_fast_classification ocFatal 0 exTurnA [exTurnB] ⟨[], 0, []⟩
    "HTTP 500 Internal Server Error" (by decide)).1 (Or.inl rfl) (by decide)
  simpa using h

/-! ### C2 -/

/-- Outcomes for C2's counterexample: unit 0 soft-fails in `add_note`
(message matches no fatal pattern), unit 1 succeeds. -/
def ocSoftFirst : Nat → TurnOutcome := fun i =>
  if i = 0 then TurnOutcome.failAddNote "llm returned malformed json" else TurnOutcome.ok

/-- C2's concrete conversation: two turns, no prior state. -/
def exConvC2 : ConvSpec :=
  ⟨[exTurnA, exTurnB], false, CheckpointFile.absentFile, ocSoftFirst, none, none, none⟩

/-- C2 counterexample: the claim says the Completion Flag is never
written for an entity with a SoftFailed unit whose key was not
checkpointed.  Here unit 0 soft-fails (its key is absent from the
checkpoint record), yet the loop completes and the flag is written. -/
theorem C2_counterexample :
    isFatalError "llm returned malformed json" = false ∧
    runConversation exConvC2 =
      EntityResult.completed ⟨["1_2024-01-02T10:00"], 1, [0, 1]⟩ ∧
    writesFlag (runConversation exConvC2) = true ∧
    turnKey 0 exTurnA ∉ (["1_2024-01-02T10:00"] : List String) := by
  decide

/-- C2 as amended: whenever the Worker writes the Completion Flag, the
Checkpoint Record contains every key loaded at start and the key of
every unit whose `try` block reached the checkpoint write (outcome `ok`
or a failure after the checkpoint dump); keys of units that SoftFailed
before their checkpoint write may be missing even though the flag is
written. -/
theorem C2_flag_implies_committed_keys :
    ∀ (c : ConvSpec) (st : LoopState), runConversation c = EntityResult.completed st →
      (∀ k ∈ committedKeys c.outcomes 0 c.turns, k ∈ st.processed) ∧
      (∀ k ∈ (loadProcessedTurns c.ckpt).1, k ∈ st.processed) := by
  intro c st h
  rcases c with ⟨ts, flag, ck, oc, ie, me, fl⟩
  simp only [runConversation] at h
  by_cases hts : ts.isEmpty
  · simp [hts] at h
  · rw [if_neg hts] at h
    by_cases hflag : flag = true
    · simp [hflag] at h
    · rw [Bool.not_eq_true] at hflag
      rw [hflag, if_neg (by simp)] at h
      match ie with
      | some m => simp at h
      | none =>
        simp only at h
        by_cases hr2 : (processTurnsFrom oc 0 ts ⟨(loadProcessedTurns ck).1, 0, []⟩).2 = true
        · rw [if_pos hr2] at h
          simp at h
        · rw [if_neg hr2] at h
          match me with
          | some m => simp at h
          | none =>
            match fl with
            | some m => simp at h
            | none =>
              simp only [EntityResult.completed.injEq] at h
              subst h
              rw [Bool.not_eq_true] at hr2
              constructor
              · exact fun k hk =>
                  processTurnsFrom_committed_mem oc ts 0 ⟨(loadProcessedTurns ck).1, 0, []⟩ hr2 k hk
              · exact fun k hk =>
                  processTurnsFrom_processed_mono oc ts 0 ⟨(loadProcessedTurns ck).1, 0, []⟩ k hk

/-- C2's witness conversation: both units succeed. -/
def exConvC2ok : ConvSpec :=
  ⟨[exTurnA, exTurnB], false, CheckpointFile.absentFile, fun _ => TurnOutcome.ok, none, none, none⟩

/-- Witness for C2's amended statement: on a fully successful
conversation the flag is written and both committed keys are in the
checkpoint record. -/
theorem C2_witness :
    turnKey 0 exTurnA ∈
      (LoopState.mk ["0_2024-01-01T10:00", "1_2024-01-02T10:00"] 2 [0, 1]).processed ∧
    turnKey 1 exTurnB ∈
      (LoopState.mk ["0_2024-01-01T10:00", "1_2024-01-02T10:00"] 2 [0, 1]).processed := by
  have h := (C2_flag_implies_committed_keys exConvC2ok
    ⟨["0_2024-01-01T10:00", "1_2024-01-02T10:00"], 2, [0, 1]⟩ (by decide)).1
  exact ⟨h _ (by decide), h _ (by decide)⟩

/-! ### C6 -/

/-- C6: re-running a conversation with a prior checkpoint record skips
every unit whose key is checkpointed (the remaining-unit list contains
no checkpointed key), processes exactly the remaining units (they are
the attempted indices), writes the Completion Flag just as an
uninterrupted run (empty checkpoint) does, and a conversation whose
Completion Flag exists is skipped entirely. -/
theorem C6_resume_idempotent :
    ∀ (c : ConvSpec), c.turns ≠ [] → c.flagExists = false → c.initError = none →
      c.metadataError = none → c.flagError = none →
      (∀ i, c.outcomes i = TurnOutcome.ok) →
      (runConversation c =
        EntityResult.completed
          ⟨(loadProcessedTurns c.ckpt).1 ++
              (remainingFrom 0 c.turns (loadProcessedTurns c.ckpt).1).map
                (fun p => turnKey p.1 p.2),
            (remainingFrom 0 c.turns (loadProcessedTurns c.ckpt).1).length,
            (remainingFrom 0 c.turns (loadProcessedTurns c.ckpt).1).map Prod.fst⟩) ∧
      (∀ p ∈ remainingFrom 0 c.turns (loadProcessedTurns c.ckpt).1,
        turnKey p.1 p.2 ∉ (loadProcessedTurns c.ckpt).1) ∧
      writesFlag (runConversation c) = true ∧
      writesFlag (runConversation { c with ckpt := CheckpointFile.wellFormedFile [] }) = true ∧
      (∀ c' : ConvSpec, c'.flagExists = true → c'.turns ≠ [] →
        runConversation c' = EntityResult.skippedCompleted) := by
  intro c h1 h2 h3 h4 h5 h6
  rcases c with ⟨ts, flag, ck, oc, ie, me, fl⟩
  simp only at h1 h2 h3 h4 h5 h6
  subst h2 h3 h4 h5
  have hts : ts.isEmpty = false := by
    cases ts with
    | nil => exact absurd rfl h1
    | cons a l => rfl
  have key : ∀ f : CheckpointFile,
      runConversation ⟨ts, false, f, oc, none, none, none⟩ =
        EntityResult.completed
          ⟨(loadProcessedTurns f).1 ++
              (remainingFrom 0 ts (loadProcessedTurns f).1).map (fun p => turnKey p.1 p.2),
            (remainingFrom 0 ts (loadProcessedTurns f).1).length,
            (remainingFrom 0 ts (loadProcessedTurns f).1).map Prod.fst⟩ := by
    intro f
    simp only [runConversation, hts, Bool.false_eq_true, if_false]
    rw [processTurnsFrom_allOk oc h6 ts 0 ⟨(loadProcessedTurns f).1, 0, []⟩]
    simp
  refine ⟨key ck, fun p hp => remainingFrom_not_done ts 0 _ p hp, ?_, ?_, ?_⟩
  · rw [key ck]
    rfl
  · show writesFlag
      (runConversation ⟨ts, false, CheckpointFile.wellFormedFile [], oc, none, none, none⟩) = true
    rw [key (CheckpointFile.wellFormedFile [])]
    rfl
  · intro c' hf hn
    rcases c' with ⟨ts', flag', ck', oc', ie', me', fl'⟩
    simp only at hf hn
    subst hf
    have hts' : ts'.isEmpty = false := by
      cases ts' with
      | nil => exact absurd rfl hn
      | cons a l => rfl
    simp [runConversation, hts']

/-- The five-turn conversation of the C6 scenario. -/
def exTurns5 : List Turn := [exTurnA, exTurnB, exTurnC, exTurnD, exTurnE]

/-- Checkpoint left by the simulated crash: the first three keys committed. -/
def exCkpt3 : CheckpointFile :=
  CheckpointFile.wellFormedFile
    ["0_2024-01-01T10:00", "1_2024-01-02T10:00", "2_2024-01-03T10:00"]

/-- The restarted conversation of the C6 scenario. -/
def exConvC6 : ConvSpec := ⟨exTurns5, false, exCkpt3, fun _ => TurnOutcome.ok, none, none, none⟩

/-- Witness for C6: after a crash with 3 of 5 checkpoints committed, the
restart processes exactly units 3 and 4 and writes the Completion Flag. -/
theorem C6_witness :
    writesFlag (runConversation exConvC6) = true ∧
    (remainingFrom 0 exTurns5 (loadProcessedTurns exCkpt3).1).map Prod.fst = [3, 4] :=
  ⟨(C6_resume_idempotent exConvC6 (by decide) rfl rfl rfl rfl (fun _ => rfl)).2.2.1,
    by decide⟩

/-! ### C10 -/

/-- C10: an exception raised outside the per-unit loop — in the
memory-system initialisation, the metadata write or the Completion-Flag
write — is caught by the per-conversation handler whatever its message
(the handler does no fatal-pattern matching), the conversation is
abandoned without a Completion Flag, and the Worker moves on to the
next conversation and can still exit with code 0. -/
theorem C10_outer_exception_abandons_entity :
    ∀ (c : ConvSpec) (rest : List ConvSpec) (msg : String),
      c.turns ≠ [] → c.flagExists = false →
      (c.initError = some msg → runConversation c = EntityResult.abandoned msg) ∧
      (c.initError = none →
        (processTurnsFrom c.outcomes 0 c.turns ⟨(loadProcessedTurns c.ckpt).1, 0, []⟩).2 = false →
        c.metadataError = some msg → runConversation c = EntityResult.abandoned msg) ∧
      (c.initError = none →
        (processTurnsFrom c.outcomes 0 c.turns ⟨(loadProcessedTurns c.ckpt).1, 0, []⟩).2 = false →
        c.metadataError = none → c.flagError = some msg →
        runConversation c = EntityResult.abandoned msg) ∧
      (runConversation c = EntityResult.abandoned msg →
        writesFlag (runConversation c) = false ∧
        processShard (c :: rest) =
          (EntityResult.abandoned msg :: (processShard rest).1, (processShard rest).2) ∧
        ((processShard rest).2 = false → workerExitCode (c :: rest) = 0)) := by
  intro c rest msg h1 h2
  rcases c with ⟨ts, flag, ck, oc, ie, me, fl⟩
  simp only at h1 h2 ⊢
  subst h2
  have hts : ts.isEmpty = false := by
    cases ts with
    | nil => exact absurd rfl h1
    | cons a l => rfl
  refine ⟨?_, ?_, ?_, ?_⟩
  · intro hie
    subst hie
    simp [runConversation, hts]
  · intro hie hr2 hme
    subst hie hme
    simp [runConversation, hts, hr2]
  · intro hie hr2 hme hfl
    subst hie hme hfl
    simp [runConversation, hts, hr2]
  · intro hab
    refine ⟨by rw [hab]; rfl, ?_, ?_⟩
    · simp [processShard, hab, isFatalExit]
    · intro hrest
      simp [workerExitCode, processShard, hab, isFatalExit, hrest]

/-- C10's witness conversation: the memory-system initialisation raises
a connection error (a message that *would* be fatal inside the per-unit
loop). -/
def exConvC10 : ConvSpec :=
  ⟨[exTurnA], false, CheckpointFile.absentFile, fun _ => TurnOutcome.ok,
    some "Connection refused by host", none, none⟩

/-- Witness for C10: a fatal-pattern message raised during
initialisation is swallowed by the outer handler; the conversation is
abandoned, no flag is written, and the Worker still exits 0. -/
theorem C10_witness :
    isFatalError "Connection refused by host" = true ∧
    runConversation exConvC10 = EntityResult.abandoned "Connection refused by host" ∧
    writesFlag (runConversation exConvC10) = false ∧
    workerExitCode [exConvC10] = 0 := by
  have h := C10_outer_exception_abandons_entity exConvC10 [] "Connection refused by host"
    (by decide) rfl
  have hab := h.1 rfl
  have h4 := h.2.2.2 hab
  exact ⟨by decide, hab, h4.1, h4.2.2 rfl⟩

/-! ### C3 -/

/-- C3: a non-zero exit code in any poll pass makes the pass report
failure; a detected failure (or a `KeyboardInterrupt`) makes the
orchestrator run the termination phase on every worker, close all log
handles, and exit with code 1; in the termination phase every
still-running worker is terminated, and force-killed exactly when it
does not exit within the 5-unit grace period; and the orchestrator
exits with code 0 only when not interrupted and some poll pass saw
every worker exited with code 0. -/
theorem C3_kill_all_on_failure :
    ∀ (snap : List PollStatus) (c : Int) (snaps : List (List PollStatus)) (intr : Bool)
      (ws : List WorkerAtCleanup) (w : WorkerAtCleanup) (o : OrchestratorOutcome),
      (some c ∈ snap → c ≠ 0 → pollWorkers snap true = PassResult.failed) ∧
      ((intr = true ∨ monitorWorkers snaps = some true) →
        runOrchestrator snaps intr ws = some ⟨ws.map terminateWorker, true, 1⟩) ∧
      (w.status = none →
        (terminateWorker w = WorkerFate.terminated ∧
          ∃ t, w.termResponseTime = some t ∧ t ≤ gracePeriod) ∨
        (terminateWorker w = WorkerFate.killed ∧
          (w.termResponseTime = none ∨
            ∃ t, w.termResponseTime = some t ∧ gracePeriod < t))) ∧
      (runOrchestrator snaps intr ws = some o → o.exitCode = 0 →
        intr = false ∧ o.logsClosed = true ∧ o.terminations = [] ∧
        ∃ snap' ∈ snaps, pollWorkers snap' true = PassResult.allDone ∧
          ∀ s ∈ snap', s = some 0) := by
  intro snap c snaps intr ws w o
  refine ⟨fun hc hc0 => pollWorkers_failed_of_mem snap true c hc hc0, ?_, ?_, ?_⟩
  · rintro (hintr | hmon)
    · subst hintr
      rfl
    · cases intr with
      | true => rfl
      | false => simp [runOrchestrator, hmon, cleanupAndExit]
  · intro hst
    match hrt : w.termResponseTime with
    | some t =>
      by_cases hle : t ≤ gracePeriod
      · exact Or.inl ⟨by simp [terminateWorker, hst, hrt, hle], t, rfl, hle⟩
      · exact Or.inr ⟨by simp [terminateWorker, hst, hrt, hle], Or.inr ⟨t, rfl, by omega⟩⟩
    | none =>
      exact Or.inr ⟨by simp [terminateWorker, hst, hrt], Or.inl rfl⟩
  · intro hrun hexit
    cases intr with
    | true =>
      rw [show runOrchestrator snaps true ws = some ⟨ws.map terminateWorker, true, 1⟩ from rfl]
        at hrun
      have := Option.some.inj hrun
      rw [← this] at hexit
      simp at hexit
    | false =>
      rw [runOrchestrator] at hrun
      match hmon : monitorWorkers snaps with
      | none => rw [hmon] at hrun; simp at hrun
      | some true =>
        rw [hmon] at hrun
        have := Option.some.inj hrun
        rw [← this] at hexit
        simp [cleanupAndExit] at hexit
      | some false =>
        rw [hmon] at hrun
        have ho := Option.some.inj hrun
        obtain ⟨snap', hs, hps⟩ := monitorWorkers_success snaps hmon
        exact ⟨rfl, by rw [← ho]; rfl, by rw [← ho]; rfl,
          snap', hs, hps, pollWorkers_allDone_all_zero snap' true hps⟩

/-- Concrete poll snapshots for C3's witness: first pass all running,
second pass worker 0 exited 0, worker 1 exited 2, worker 2 running. -/
def exSnaps : List (List PollStatus) := [[none, none, none], [some 0, some 2, none]]

/-- Workers at cleanup for C3's witness: one already exited with code 2,
one exits 3 units after terminate, one never exits. -/
def exWs : List WorkerAtCleanup := [⟨some 2, none⟩, ⟨none, some 3⟩, ⟨none, none⟩]

/-- Witness for C3 on concrete snapshots: the failing pass is detected,
all workers are cleaned up, logs closed, exit code 1. -/
theorem C3_witness :
    pollWorkers [some 0, some 2, none] true = PassResult.failed ∧
    runOrchestrator exSnaps false exWs = some ⟨exWs.map terminateWorker, true, 1⟩ ∧
    exWs.map terminateWorker =
      [WorkerFate.alreadyExited 2, WorkerFate.terminated, WorkerFate.killed] := by
  have h := C3_kill_all_on_failure [some 0, some 2, none] 2 exSnaps false exWs
    ⟨none, some 3⟩ ⟨[], true, 1⟩
  exact ⟨h.1 (by decide) (by decide), h.2.1 (Or.inr (by decide)), by decide⟩
